import Mathlib

set_option maxHeartbeats 1000000

/-!
Shallow embedding of the two HP BIOS settings Ansible modules of this
repository, `library/conrep.py` (flat-value adapter) and `library/hprcu.py`
(structured-feature adapter).

Modelling conventions:
* Python dicts are association lists in insertion order with unique keys
  (uniqueness is stated as a hypothesis where a proof needs it).
* Python exceptions are an explicit `PyError` type threaded through `Except`.
  The two module-defined exception classes map to `PyError.conrepError` and
  `PyError.hprcuError`; undefined-name references, attribute access on `None`
  and missing dict keys map to the corresponding built-in exceptions.
* The external backend binaries are not run: `run_module` takes the parsed
  result of the backend read as an argument, and the exit status of the
  backend write is a boolean parameter (`writeRc`, true = exit code 0).
  The captured output interpolated into backend failure messages is external
  data and is left out of the modelled message.
* XML documents are modelled post-parse: a conrep settings document by its
  `parse_dat` image (an association list), an hprcu document by the list of
  its root's child elements, keeping exactly the attributes and children the
  code reads.  Children the code unconditionally dereferences
  (`feature_name`, `option_name`) are assumed present; `feature_value` text
  is kept optional, as the code compares it against `None`-able text.
-/

/-- Python exceptions the modelled code can raise.  `conrepError` and
`hprcuError` are the two module-defined error classes (`ConrepError`,
`HprcuError`); the rest are Python built-ins: `nameError` for a reference to
an undefined name, `attributeError` for attribute access on `None`,
`keyError` for a missing dict key. -/
inductive PyError where
  | conrepError (msg : String)
  | hprcuError (msg : String)
  | nameError (n : String)
  | attributeError (msg : String)
  | keyError (key : String)
deriving Repr, DecidableEq

/-- Python dict with string keys, as an insertion-ordered association list. -/
abbrev SDict := List (String × String)

/-- Python `d[k] = v`: overwrite in place if the key exists, else append. -/
def dictSet {α : Type} (d : List (String × α)) (k : String) (v : α) :
    List (String × α) :=
  if (d.lookup k).isSome then
    d.map (fun kv => if kv.1 = k then (k, v) else kv)
  else
    d ++ [(k, v)]

/-- The keys of a dict, in insertion order. -/
def dictKeys {α : Type} (d : List (String × α)) : List String :=
  d.map Prod.fst

instance {ε α : Type} [DecidableEq ε] [DecidableEq α] :
    DecidableEq (Except ε α) := fun x y =>
  match x, y with
  | .ok a, .ok b =>
    if h : a = b then .isTrue (by rw [h])
    else .isFalse (by intro hc; cases hc; exact h rfl)
  | .ok _, .error _ => .isFalse (by intro hc; cases hc)
  | .error _, .ok _ => .isFalse (by intro hc; cases hc)
  | .error a, .error b =>
    if h : a = b then .isTrue (by rw [h])
    else .isFalse (by intro hc; cases hc; exact h rfl)

/-- Result of one module run: the JSON result (or a propagated non-domain
Python exception) plus whether the backend's load/apply command was
invoked. -/
structure Outcome (ρ : Type) where
  result : Except PyError ρ
  wrote : Bool
deriving Repr, DecidableEq

namespace Conrep

/-- `check_settings`: raise `ConrepError` on the first desired key that is
absent from the current settings. -/
def conrepUnknownMsg (k v : String) : String :=
  "Setting \x27" ++ k ++ "\x27 (value: " ++ v ++ ") isn\x27t known" ++
    " by conrep - perhaps you need a special hardware definition file?"

/-- `check_settings(old_settings, settings)` from `library/conrep.py`. -/
def check_settings (old_settings : SDict) : SDict → Except PyError Unit
  | [] => .ok ()
  | (k, v) :: rest =>
    if (old_settings.lookup k).isSome then
      check_settings old_settings rest
    else
      .error (.conrepError (conrepUnknownMsg k v))

/-- `filter_changed_settings(old_settings, settings)` from
`library/conrep.py`; `old_settings[k]` on an absent key is a `KeyError`. -/
def filter_changed_settings (old_settings : SDict) :
    SDict → Except PyError SDict
  | [] => .ok []
  | (k, v) :: rest =>
    match old_settings.lookup k with
    | none => .error (.keyError k)
    | some ov =>
      match filter_changed_settings old_settings rest with
      | .error e => .error e
      | .ok h => .ok (if v ≠ ov then (k, v) :: h else h)

/-- Lexicographic comparison of `(key, value)` pairs, as Python `sorted`
compares tuples of strings. -/
def pairLe (a b : String × String) : Bool :=
  decide (a.1 < b.1) || (decide (a.1 = b.1) && !(decide (b.2 < a.2)))

/-- Stable insertion of a pair into a sorted list. -/
def insertPair (x : String × String) : SDict → SDict
  | [] => [x]
  | y :: ys => if pairLe x y then x :: y :: ys else y :: insertPair x ys

/-- Python `sorted(settings.items())`: stable ascending sort of the pairs. -/
def sortPairs : SDict → SDict
  | [] => []
  | x :: xs => insertPair x (sortPairs xs)

/-- The before/after line lists of `diff_settings`, over the already-sorted
items; `old_settings[k]` on an absent key is a `KeyError`. -/
def diffLoop (old_settings : SDict) :
    SDict → Except PyError (List String × List String)
  | [] => .ok ([], [])
  | (k, v) :: rest =>
    match old_settings.lookup k with
    | none => .error (.keyError k)
    | some ov =>
      match diffLoop old_settings rest with
      | .error e => .error e
      | .ok (bs, fs) => .ok ((k ++ " => " ++ ov) :: bs, (k ++ " => " ++ v) :: fs)

/-- `diff_settings(old_settings, settings)` from `library/conrep.py`:
name-sorted `name => value` lines with a trailing newline. -/
def diff_settings (old_settings settings : SDict) :
    Except PyError (String × String) :=
  match diffLoop old_settings (sortPairs settings) with
  | .error e => .error e
  | .ok (bs, fs) =>
    .ok (String.intercalate "\n" (bs ++ [""]), String.intercalate "\n" (fs ++ [""]))

/-- `merge_dicts(xs, ys)` from `library/conrep.py`: `xs.copy()` updated with
`ys` (existing keys overwritten in place, new keys appended). -/
def merge_dicts (xs ys : SDict) : SDict :=
  (xs.map fun kv =>
    match ys.lookup kv.1 with
    | some v => (kv.1, v)
    | none => kv) ++ ys.filter fun kv => (xs.lookup kv.1).isNone

/-- One `<Section name="...">...</Section>` line of the document
`write_settings` generates. -/
def renderSection (kv : String × String) : String :=
  "<Section name=\"" ++ kv.1 ++ "\">" ++ kv.2 ++ "</Section>"

/-- The replacement document `write_settings` writes to the scratch file. -/
def renderConrepDat (settings : SDict) : String :=
  "<Conrep>\n" ++ String.join (settings.map (fun kv => renderSection kv ++ "\n"))
    ++ "</Conrep>\n"

/-- Message of the `ConrepError` raised by `call_conrep` on a non-zero exit
status (the interpolated exit code and captured output are external data and
are not modelled). -/
def conrepBackendMsg : String := "Conrep failed"

/-- The module parameters plus ambient module state: diff request, check
mode, verbosity >= 3 (`debug`), and the exit status the backend's load
invocation would return (`writeRc`, true = exit code 0).  `settings_xml` is
modelled by its `parse_dat_from_string` image; `none` is the empty-string
default. -/
structure Params where
  settings : SDict
  settings_xml : Option SDict
  facts : Bool
  diffMode : Bool
  check_mode : Bool
  debug : Bool
  writeRc : Bool
deriving Repr, DecidableEq

/-- The fields of the module's JSON result that `run_module` fills in. -/
structure ModResult where
  changed : Bool
  diff : Option (String × String)
  facts : Option SDict
  failedMsg : Option String
  debugOut : Option String
deriving Repr, DecidableEq

/-- The initial `result` dict of `run_module`. -/
def emptyResult : ModResult :=
  { changed := false, diff := none, facts := none, failedMsg := none,
    debugOut := none }

/-- The `except ConrepError` boundary of `run_module`: a `ConrepError`
becomes `fail_json` with the result fields accumulated so far; any other
exception propagates. -/
def boundary (r : ModResult) (w : Bool) (e : PyError) : Outcome ModResult :=
  match e with
  | .conrepError m => { result := .ok { r with failedMsg := some m }, wrote := w }
  | _ => { result := .error e, wrote := w }

/-- The tail of `run_module` after the write step: store the facts when the
`facts` parameter is set. -/
def finish (r : ModResult) (w : Bool) (old_settings settings : SDict)
    (p : Params) : Outcome ModResult :=
  if p.facts then
    { result := .ok { r with facts := some (merge_dicts old_settings settings) },
      wrote := w }
  else
    { result := .ok r, wrote := w }

/-- `run_module` of `library/conrep.py`, given the parsed result
`old_settings` of the backend read. -/
def run_module (old_settings : SDict) (p : Params) : Outcome ModResult :=
  let settings0 := match p.settings_xml with
    | some d => d
    | none => p.settings
  match check_settings old_settings settings0 with
  | .error e => boundary emptyResult false e
  | .ok _ =>
  match filter_changed_settings old_settings settings0 with
  | .error e => boundary emptyResult false e
  | .ok settings =>
  match (if p.diffMode then (diff_settings old_settings settings).map some
         else .ok none) with
  | .error e => boundary emptyResult false e
  | .ok dOpt =>
  let r1 := { emptyResult with diff := dOpt }
  if settings.isEmpty then
    finish r1 false old_settings settings p
  else
    if !p.check_mode && !p.writeRc then
      boundary r1 true (.conrepError conrepBackendMsg)
    else
      let dbg : Option String := if p.debug then
          some ("generated conrep.dat: " ++ renderConrepDat settings)
        else none
      let r2 := { r1 with changed := true, debugOut := dbg }
      finish r2 (!p.check_mode) old_settings settings p

end Conrep

namespace Hprcu

/-- One `<option>` child of a feature element: its `option_id` attribute and
the text of its `option_name` child. -/
structure HOpt where
  option_id : String
  option_name : String
deriving Repr, DecidableEq

/-- One child element of the hprcu document root, keeping exactly the
attributes and children the code reads.  Elements whose tag is not
`feature` are skipped by every loop, so only the tag matters for them. -/
structure Elem where
  tag : String
  feature_id : String
  feature_name : String
  feature_type : String
  selected_option_id : String
  options : List HOpt
  feature_value : Option String
deriving Repr, DecidableEq

/-- An hprcu document, as the list of the root element's children. -/
abbrev Doc := List Elem

/-- Serialization of an `<option>` element. -/
def opt2string (o : HOpt) : String :=
  "<option option_id=\"" ++ o.option_id ++ "\"><option_name>" ++
    o.option_name ++ "</option_name></option>"

/-- Serialization of one child element (`et_tostring`). -/
def elem2string (e : Elem) : String :=
  "<" ++ e.tag ++ " feature_id=\"" ++ e.feature_id ++ "\" feature_type=\"" ++
      e.feature_type ++ "\" selected_option_id=\"" ++ e.selected_option_id ++
      "\">" ++
    "<feature_name>" ++ e.feature_name ++ "</feature_name>" ++
    String.join (e.options.map opt2string) ++
    (match e.feature_value with
     | some v => "<feature_value>" ++ v ++ "</feature_value>"
     | none => "") ++
    "</" ++ e.tag ++ ">"

/-- `doc2string(d)` of `library/hprcu.py` for a non-`None` document. -/
def doc2string (d : Doc) : String :=
  "<hprcu>" ++ String.join (d.map elem2string) ++ "</hprcu>"

/-- The message of the `HprcuError` listing all desired keys that matched no
feature. -/
def unknownSettingsMsg (h : SDict) (seen : List String) : String :=
  "Some features are unknown to this hprcu: " ++
    String.intercalate ", " ((dictKeys h).filter (fun x => decide (x ∉ seen)))

/-- Processing of one child element by the loop of `apply_settings`:
the possibly edited element, the updated `seen` set (a duplicate-free list)
and the updated `changed` flag.

For a matched option feature with no option of the desired display name the
code evaluates the undefined name `HprcuErrror` (a misspelling of
`HprcuError`), so Python raises `NameError: HprcuErrror`.  For a matched
feature of an unrecognized `feature_type` the code builds the `HprcuError`
message from the undefined name `n`, so Python raises `NameError: n`. -/
def applyStep (h : SDict) (e : Elem) (seen : List String) (changed : Bool) :
    Except PyError (Elem × List String × Bool) :=
  if e.tag ≠ "feature" then .ok (e, seen, changed)
  else
    match h.lookup e.feature_name with
    | none => .ok (e, seen, changed)
    | some v =>
      let seen0 := if e.feature_name ∈ seen then seen else seen ++ [e.feature_name]
      if e.feature_type = "option" then
        match (e.options.filter (fun o => o.option_name = v)).map
            (fun o => o.option_id) with
        | [] => .error (.nameError "HprcuErrror")
        | oid :: _ =>
          .ok ({ e with selected_option_id := oid }, seen0,
               changed || decide (e.selected_option_id ≠ oid))
      else if e.feature_type = "string" then
        .ok ({ e with feature_value := some v }, seen0,
             changed || decide (e.feature_value ≠ some v))
      else
        .error (.nameError "n")

/-- `seen.add(name)` on the set of matched names: append if absent. -/
def insertSeen (seen : List String) (x : String) : List String :=
  if x ∈ seen then seen else seen ++ [x]

/-- The loop of `apply_settings` over the document's child elements,
threading the edited elements, the `seen` set and the `changed` flag. -/
def applyLoop (h : SDict) : List Elem → List String → Bool →
    Except PyError (List Elem × List String × Bool)
  | [], seen, changed => .ok ([], seen, changed)
  | e :: es, seen, changed =>
    match applyStep h e seen changed with
    | .error err => .error err
    | .ok (e0, seen0, ch0) =>
      match applyLoop h es seen0 ch0 with
      | .error err => .error err
      | .ok (es1, seen1, ch1) => .ok (e0 :: es1, seen1, ch1)

/-- `apply_settings(doc, h)` of `library/hprcu.py`: returns the edited
document together with the `changed` flag. -/
def apply_settings (doc : Doc) (h : SDict) : Except PyError (Doc × Bool) :=
  match applyLoop h doc [] false with
  | .error e => .error e
  | .ok (doc1, seen, changed) =>
    if seen.length ≠ h.length then
      .error (.hprcuError (unknownSettingsMsg h seen))
    else
      .ok (doc1, changed)

/-- `doc2dict(doc)`: `feature_id → selected_option_id` for option features,
`feature_id → feature_value text` for string features; other feature types
and non-feature elements are skipped. -/
def doc2dict (doc : Doc) : List (String × Option String) :=
  doc.foldl (fun h f =>
    if f.tag ≠ "feature" then h
    else if f.feature_type = "option" then
      dictSet h f.feature_id (some f.selected_option_id)
    else if f.feature_type = "string" then
      dictSet h f.feature_id f.feature_value
    else h) []

/-- The names of the feature elements of a document, i.e. the desired-state
keys `apply_settings` can match. -/
def featureNames (doc : Doc) : List String :=
  (doc.filter (fun e => e.tag == "feature")).map (fun e => e.feature_name)

/-- Holds when `apply_settings` can process this element without raising
inside the loop: the element is not a feature, or is not named in the
desired mapping, or is an option feature with an option of the desired
display name, or is a string feature. -/
def featureAppliesCleanly (h : SDict) (e : Elem) : Bool :=
  if e.tag ≠ "feature" then true
  else
    match h.lookup e.feature_name with
    | none => true
    | some v =>
      if e.feature_type = "option" then
        e.options.any (fun o => decide (o.option_name = v))
      else decide (e.feature_type = "string")

/-- The loop of `doc2facts` over the child elements.  For an option feature
whose `selected_option_id` matches no option, `find` returns `None` and the
`.text` access raises `AttributeError`. -/
def factsLoop : List Elem → List (String × Option String) →
    Except PyError (List (String × Option String))
  | [], h => .ok h
  | f :: fs, h =>
    if f.tag ≠ "feature" then factsLoop fs h
    else if f.feature_type = "option" then
      match f.options.find? (fun o => o.option_id = f.selected_option_id) with
      | none => .error (.attributeError "NoneType object has no attribute text")
      | some o => factsLoop fs (dictSet h f.feature_name (some o.option_name))
    else if f.feature_type = "string" then
      factsLoop fs (dictSet h f.feature_name f.feature_value)
    else
      factsLoop fs h

/-- `doc2facts(doc)` of `library/hprcu.py`; `None` yields the empty dict. -/
def doc2facts (doc : Option Doc) :
    Except PyError (List (String × Option String)) :=
  match doc with
  | none => .ok []
  | some d => factsLoop d []

/-- The loop of `doc_yield_changes` over the candidate's canonical mapping:
raise on the first id absent from the old mapping, return `true` on the
first shared id whose value differs. -/
def yieldLoop (x : List (String × Option String)) :
    List (String × Option String) → Except PyError Bool
  | [] => .ok false
  | (k, v) :: rest =>
    match x.lookup k with
    | none => .error (.hprcuError ("Feature " ++ k ++ " not known by this hprcu"))
    | some w => if w ≠ v then .ok true else yieldLoop x rest

/-- `doc_yield_changes(old_doc, doc)` of `library/hprcu.py`. -/
def doc_yield_changes (old_doc doc : Doc) : Except PyError Bool :=
  yieldLoop (doc2dict old_doc) (doc2dict doc)

/-- `mk_diff(old_doc, doc)`: whole-document before/after serialization; at
its `run_module` call site the second argument is `None` when neither
`settings` nor `settings_xml` was supplied, and `doc2string` then raises
`AttributeError` on `None.write`. -/
def mk_diff (old_doc : Doc) (doc : Option Doc) :
    Except PyError (String × String) :=
  match doc with
  | none => .error (.attributeError "NoneType object has no attribute write")
  | some d => .ok (doc2string old_doc, doc2string d)

/-- Message of the `HprcuError` raised by `call_hprcu` on a non-zero exit
status (the interpolated exit code and captured output are external data and
are not modelled). -/
def hprcuBackendMsg : String := "hprcu failed"

/-- The module parameters plus ambient module state, as for the conrep
module; `settings_xml` is modelled by its parse image, `none` being the
empty-string default. -/
structure Params where
  settings : SDict
  settings_xml : Option Doc
  facts : Bool
  diffMode : Bool
  check_mode : Bool
  debug : Bool
  writeRc : Bool
deriving Repr, DecidableEq

/-- The fields of the module's JSON result that `run_module` fills in. -/
structure ModResult where
  changed : Bool
  diff : Option (String × String)
  facts : Option (List (String × Option String))
  failedMsg : Option String
  debugOut : Option String
deriving Repr, DecidableEq

/-- The initial `result` dict of `run_module`. -/
def emptyResult : ModResult :=
  { changed := false, diff := none, facts := none, failedMsg := none,
    debugOut := none }

/-- The `except HprcuError` boundary of `run_module`: an `HprcuError`
becomes `fail_json` with the result fields accumulated so far; any other
exception propagates. -/
def boundary (r : ModResult) (w : Bool) (e : PyError) : Outcome ModResult :=
  match e with
  | .hprcuError m => { result := .ok { r with failedMsg := some m }, wrote := w }
  | _ => { result := .error e, wrote := w }

/-- The `if module.params['settings']:` step of `run_module`: apply the
desired mapping to a copy of the old document. -/
def settingsStep (old_doc : Doc) (p : Params) :
    Except PyError (Option Doc × Bool) :=
  if p.settings.isEmpty then .ok (none, false)
  else
    match apply_settings old_doc p.settings with
    | .error e => .error e
    | .ok (d, c) => .ok (some d, c)

/-- The `if module.params['settings_xml']:` step of `run_module`: the parsed
raw document replaces `doc` and `changed` is recomputed from
`doc_yield_changes`. -/
def xmlStep (old_doc : Doc) (p : Params) (st : Option Doc × Bool) :
    Except PyError (Option Doc × Bool) :=
  match p.settings_xml with
  | none => .ok st
  | some cand =>
    match doc_yield_changes old_doc cand with
    | .error e => .error e
    | .ok c => .ok (some cand, c)

/-- The tail of `run_module` after the write step: store the facts when the
`facts` parameter is set (`doc2facts(doc if doc else old_doc)`). -/
def finish (r : ModResult) (w : Bool) (doc : Option Doc) (old_doc : Doc)
    (p : Params) : Outcome ModResult :=
  if p.facts then
    match doc2facts (some (doc.getD old_doc)) with
    | .error e => boundary r w e
    | .ok fs => { result := .ok { r with facts := some fs }, wrote := w }
  else
    { result := .ok r, wrote := w }

/-- `run_module` of `library/hprcu.py`, given the parsed result `old_doc` of
the backend read. -/
def run_module (old_doc : Doc) (p : Params) : Outcome ModResult :=
  match settingsStep old_doc p with
  | .error e => boundary emptyResult false e
  | .ok st =>
  match xmlStep old_doc p st with
  | .error e => boundary emptyResult false e
  | .ok (doc, changed) =>
  match (if p.diffMode then (mk_diff old_doc doc).map some else .ok none) with
  | .error e => boundary emptyResult false e
  | .ok dOpt =>
  let r1 := { emptyResult with diff := dOpt }
  if changed then
    if !p.check_mode && !p.writeRc then
      boundary r1 true (.hprcuError hprcuBackendMsg)
    else
      let dbg : Option String := if p.debug then
          some ("new hprcu.xml: " ++ (match doc with
            | some d => doc2string d
            | none => ""))
        else none
      let r2 := { r1 with changed := true, debugOut := dbg }
      finish r2 (!p.check_mode) doc old_doc p
  else
    finish r1 false doc old_doc p

end Hprcu

namespace Examples

/-- A concrete enumerated feature (the spec's `Hyperthreading` scenario). -/
def featHT : Hprcu.Elem :=
  { tag := "feature", feature_id := "10", feature_name := "Hyperthreading",
    feature_type := "option", selected_option_id := "1",
    options := [{ option_id := "1", option_name := "Enabled" },
                { option_id := "2", option_name := "Disabled" }],
    feature_value := none }

/-- A second concrete enumerated feature, with an id unknown to
`[featHT]`. -/
def featOther : Hprcu.Elem :=
  { tag := "feature", feature_id := "99", feature_name := "Other",
    feature_type := "option", selected_option_id := "1",
    options := [{ option_id := "1", option_name := "On" }],
    feature_value := none }

/-- Baseline hprcu module parameters: no input, no facts, no diff, regular
mode, backend write succeeding. -/
def hprcuBase : Hprcu.Params :=
  { settings := [], settings_xml := none, facts := false, diffMode := false,
    check_mode := false, debug := false, writeRc := true }

/-- Baseline conrep module parameters. -/
def conrepBase : Conrep.Params :=
  { settings := [], settings_xml := none, facts := false, diffMode := false,
    check_mode := false, debug := false, writeRc := true }

end Examples

theorem lookup_isSome_iff_mem_keys {α : Type} (d : List (String × α))
    (k : String) : (d.lookup k).isSome = true ↔ k ∈ dictKeys d := by
  induction d with
  | nil => simp [dictKeys]
  | cons kv rest ih =>
    obtain ⟨k1, v1⟩ := kv
    by_cases h : k = k1
    · subst h
      simp [List.lookup, dictKeys]
    · have hb : (k == k1) = false := beq_eq_false_iff_ne.mpr h
      simp [List.lookup, dictKeys, hb, h, ih]

theorem lookup_cons {α : Type} (k k1 : String) (v1 : α)
    (rest : List (String × α)) :
    List.lookup k ((k1, v1) :: rest) = if k = k1 then some v1 else rest.lookup k := by
  by_cases h : k = k1
  · subst h
    simp [List.lookup]
  · have hb : (k == k1) = false := beq_eq_false_iff_ne.mpr h
    simp [List.lookup, hb, h]

theorem lookup_none_of_not_mem_keys {α : Type} {d : List (String × α)}
    {k : String} (h : k ∉ dictKeys d) : d.lookup k = none := by
  cases hl : d.lookup k with
  | none => rfl
  | some v =>
    exact absurd ((lookup_isSome_iff_mem_keys d k).1 (by simp [hl])) h

theorem lookup_filter_of_nodup {α : Type} (d : List (String × α))
    (p : String × α → Bool) (k : String) (hnd : (dictKeys d).Nodup) :
    (d.filter p).lookup k =
      match d.lookup k with
      | some v => if p (k, v) then some v else none
      | none => none := by
  induction d with
  | nil => simp
  | cons kv rest ih =>
    obtain ⟨k1, v1⟩ := kv
    simp only [dictKeys, List.map_cons, List.nodup_cons] at hnd
    have ihr := ih (by simpa [dictKeys] using hnd.2)
    by_cases h : k = k1
    · subst h
      have hrest : k ∉ dictKeys rest := by simpa [dictKeys] using hnd.1
      have hfil : (rest.filter p).lookup k = none := by
        apply lookup_none_of_not_mem_keys
        intro hc
        apply hrest
        simp only [dictKeys, List.mem_map] at hc ⊢
        obtain ⟨kv, hkv, hfst⟩ := hc
        exact ⟨kv, List.mem_of_mem_filter hkv, hfst⟩
      by_cases hp : p (k, v1)
      · simp [List.filter_cons, hp, lookup_cons]
      · simp [List.filter_cons, hp, lookup_cons, hfil]
    · by_cases hp : p (k1, v1)
      · simp [List.filter_cons, hp, lookup_cons, h, ihr]
      · simp [List.filter_cons, hp, lookup_cons, h, ihr]

theorem mem_of_lookup_eq_some {α : Type} {d : List (String × α)} {k : String}
    {v : α} (h : d.lookup k = some v) : (k, v) ∈ d := by
  induction d with
  | nil => simp [List.lookup] at h
  | cons kv rest ih =>
    obtain ⟨k1, v1⟩ := kv
    rw [lookup_cons] at h
    by_cases he : k = k1
    · rw [if_pos he] at h
      cases h
      simp [he]
    · rw [if_neg he] at h
      exact List.mem_cons_of_mem _ (ih h)

theorem lookup_append {α : Type} (l1 l2 : List (String × α)) (k : String) :
    (l1 ++ l2).lookup k =
      match l1.lookup k with
      | some v => some v
      | none => l2.lookup k := by
  induction l1 with
  | nil => simp [List.lookup]
  | cons kv rest ih =>
    obtain ⟨k1, v1⟩ := kv
    by_cases h : k = k1
    · simp [List.cons_append, lookup_cons, h]
    · simp [List.cons_append, lookup_cons, h, ih]

namespace Conrep

theorem check_settings_isOk (old s : SDict)
    (h : ∀ kv ∈ s, (old.lookup kv.1).isSome = true) :
    check_settings old s = .ok () := by
  induction s with
  | nil => rfl
  | cons kv rest ih =>
    obtain ⟨k, v⟩ := kv
    simp only [check_settings]
    rw [if_pos (h (k, v) (List.mem_cons_self _ _))]
    exact ih (fun kv hkv => h kv (List.mem_cons_of_mem _ hkv))

theorem check_settings_first_missing (C : SDict) (D1 D2 : SDict)
    (k v : String) (hpre : ∀ kv ∈ D1, (C.lookup kv.1).isSome = true)
    (hk : C.lookup k = none) :
    check_settings C (D1 ++ (k, v) :: D2) =
      .error (.conrepError (conrepUnknownMsg k v)) := by
  induction D1 with
  | nil =>
    simp only [List.nil_append, check_settings, hk]
    rfl
  | cons kv1 rest ih =>
    obtain ⟨k1, v1⟩ := kv1
    simp only [List.cons_append, check_settings]
    rw [if_pos (hpre (k1, v1) (List.mem_cons_self _ _))]
    exact ih (fun kv hkv => hpre kv (List.mem_cons_of_mem _ hkv))

theorem filter_changed_settings_eq (old s : SDict)
    (h : ∀ kv ∈ s, (old.lookup kv.1).isSome = true) :
    filter_changed_settings old s =
      .ok (s.filter fun kv => decide (old.lookup kv.1 ≠ some kv.2)) := by
  induction s with
  | nil => rfl
  | cons kv rest ih =>
    obtain ⟨k, v⟩ := kv
    have hk := h (k, v) (List.mem_cons_self _ _)
    cases hl : old.lookup k with
    | none => rw [hl] at hk; simp at hk
    | some ov =>
      simp only [filter_changed_settings, hl]
      rw [ih (fun kv hkv => h kv (List.mem_cons_of_mem _ hkv))]
      by_cases hv : v = ov
      · subst hv
        simp [List.filter_cons, hl]
      · have : ov ≠ v := fun hc => hv hc.symm
        simp [List.filter_cons, hl, hv, this]

theorem mem_insertPair (x y : String × String) (l : SDict) :
    y ∈ insertPair x l ↔ y = x ∨ y ∈ l := by
  induction l with
  | nil => simp [insertPair]
  | cons z zs ih =>
    simp only [insertPair]
    by_cases h : pairLe x z
    · simp [h, List.mem_cons]
    · simp only [h, if_false, Bool.false_eq_true, List.mem_cons, ih]
      tauto

theorem mem_sortPairs (x : String × String) (l : SDict) :
    x ∈ sortPairs l ↔ x ∈ l := by
  induction l with
  | nil => simp [sortPairs]
  | cons z zs ih =>
    simp [sortPairs, mem_insertPair, ih, List.mem_cons]

theorem diffLoop_isOk (old s : SDict)
    (h : ∀ kv ∈ s, (old.lookup kv.1).isSome = true) :
    ∃ out, diffLoop old s = .ok out := by
  induction s with
  | nil => exact ⟨([], []), rfl⟩
  | cons kv rest ih =>
    obtain ⟨k, v⟩ := kv
    have hk := h (k, v) (List.mem_cons_self _ _)
    cases hl : old.lookup k with
    | none => rw [hl] at hk; simp at hk
    | some ov =>
      obtain ⟨⟨bs, fs⟩, hout⟩ := ih (fun kv hkv => h kv (List.mem_cons_of_mem _ hkv))
      refine ⟨((k ++ " => " ++ ov) :: bs, (k ++ " => " ++ v) :: fs), ?_⟩
      simp [diffLoop, hl, hout]

theorem diff_settings_isOk (old s : SDict)
    (h : ∀ kv ∈ s, (old.lookup kv.1).isSome = true) :
    ∃ out, diff_settings old s = .ok out := by
  have h2 : ∀ kv ∈ sortPairs s, (old.lookup kv.1).isSome = true :=
    fun kv hkv => h kv ((mem_sortPairs kv s).1 hkv)
  obtain ⟨⟨bs, fs⟩, hout⟩ := diffLoop_isOk old (sortPairs s) h2
  refine ⟨(String.intercalate "\n" (bs ++ [""]),
           String.intercalate "\n" (fs ++ [""])), ?_⟩
  simp [diff_settings, hout]

theorem map_update_lookup (xs ys : SDict) (k : String) :
    ((xs.map fun kv =>
        match ys.lookup kv.1 with
        | some v => (kv.1, v)
        | none => kv).lookup k) =
      match xs.lookup k with
      | some v =>
        (match ys.lookup k with
         | some w => some w
         | none => some v)
      | none => none := by
  induction xs with
  | nil => simp [List.lookup]
  | cons kv rest ih =>
    obtain ⟨k1, v1⟩ := kv
    by_cases h : k = k1
    · subst h
      cases hy : ys.lookup k <;>
        simp [List.map_cons, hy, lookup_cons]
    · cases hy : ys.lookup k1 <;>
        simp [List.map_cons, hy, lookup_cons, h, ih]

theorem filter_new_lookup (xs ys : SDict) (k : String) :
    ((ys.filter fun kv => (xs.lookup kv.1).isNone).lookup k) =
      if (xs.lookup k).isSome then none else ys.lookup k := by
  induction ys with
  | nil => simp [List.lookup]
  | cons kv rest ih =>
    obtain ⟨k1, v1⟩ := kv
    by_cases h : k = k1
    · subst h
      cases hx : xs.lookup k <;>
        simp [List.filter_cons, hx, lookup_cons, ih]
    · cases hp : (xs.lookup k1).isNone <;>
        simp [List.filter_cons, hp, lookup_cons, h, ih]

theorem merge_dicts_lookup (xs ys : SDict) (k : String) :
    (merge_dicts xs ys).lookup k =
      match ys.lookup k with
      | some v => some v
      | none => xs.lookup k := by
  rw [merge_dicts, lookup_append, map_update_lookup, filter_new_lookup]
  cases hx : xs.lookup k <;> cases hy : ys.lookup k <;> simp [hx, hy]

end Conrep

/-- C1: for every current-state mapping `C` and desired mapping `D` whose
keys are all present in `C`, the flat adapter's changed subset
`filter_changed_settings(C, D)` is exactly the sub-mapping of `D` whose
values differ from `C`'s, and the facts that `run_module` then reports are
`merge_dicts(C, changedSubset)`, which equals `C` updated with `D`'s entries
on `D`'s keys. -/
theorem conrep_changed_subset_and_facts (C D : SDict) (p : Conrep.Params)
    (hsub : ∀ kv ∈ D, (C.lookup kv.1).isSome = true)
    (hD : (dictKeys D).Nodup)
    (hset : p.settings = D) (hxml : p.settings_xml = none)
    (hfacts : p.facts = true) (hrc : p.writeRc = true) :
    Conrep.filter_changed_settings C D =
      .ok (D.filter fun kv => decide (C.lookup kv.1 ≠ some kv.2)) ∧
    (∃ r, (Conrep.run_module C p).result = .ok r ∧ r.failedMsg = none ∧
      r.facts = some (Conrep.merge_dicts C
        (D.filter fun kv => decide (C.lookup kv.1 ≠ some kv.2)))) ∧
    ∀ k, (Conrep.merge_dicts C
        (D.filter fun kv => decide (C.lookup kv.1 ≠ some kv.2))).lookup k =
      match D.lookup k with
      | some v => some v
      | none => C.lookup k := by
  have hE := Conrep.filter_changed_settings_eq C D hsub
  refine ⟨hE, ?_, ?_⟩
  · have hEsub : ∀ kv ∈ D.filter fun kv => decide (C.lookup kv.1 ≠ some kv.2),
        (C.lookup kv.1).isSome = true :=
      fun kv hkv => hsub kv (List.mem_of_mem_filter hkv)
    obtain ⟨dpair, hdiff⟩ :=
      Conrep.diff_settings_isOk C
        (D.filter fun kv => decide (C.lookup kv.1 ≠ some kv.2)) hEsub
    simp only [Conrep.run_module, hset, hxml, Conrep.check_settings_isOk C D hsub, hE]
    cases hdm : p.diffMode <;>
      cases hie : (D.filter fun kv => decide (C.lookup kv.1 ≠ some kv.2)).isEmpty <;>
      simp only [hdiff, Except.map, hrc, Bool.not_true, Bool.and_false,
        Bool.false_eq_true, if_true, if_false, Conrep.finish, hfacts] <;>
      exact ⟨_, rfl, rfl, rfl⟩
  · intro k
    rw [Conrep.merge_dicts_lookup]
    rw [lookup_filter_of_nodup D _ k hD]
    cases hd : D.lookup k with
    | none => rfl
    | some v =>
      by_cases hc : C.lookup k = some v
      · simp [hc]
      · simp [hc]

/-- Witness for C1 at the spec's flat-adapter scenario. -/
theorem conrep_changed_subset_and_facts_witness :
    (∀ kv ∈ ([("PowerMonitoring", "Disabled")] : SDict),
      ((([("PowerMonitoring", "Enabled"), ("Turbo", "Enabled")] : SDict)).lookup
        kv.1).isSome = true) ∧
    Conrep.filter_changed_settings
        [("PowerMonitoring", "Enabled"), ("Turbo", "Enabled")]
        [("PowerMonitoring", "Disabled")] =
      .ok [("PowerMonitoring", "Disabled")] ∧
    (∃ r, (Conrep.run_module
        [("PowerMonitoring", "Enabled"), ("Turbo", "Enabled")]
        { Examples.conrepBase with
          settings := [("PowerMonitoring", "Disabled")], facts := true }).result
          = .ok r ∧ r.failedMsg = none ∧
      r.facts = some (Conrep.merge_dicts
        [("PowerMonitoring", "Enabled"), ("Turbo", "Enabled")]
        [("PowerMonitoring", "Disabled")])) := by
  have h := conrep_changed_subset_and_facts
    [("PowerMonitoring", "Enabled"), ("Turbo", "Enabled")]
    [("PowerMonitoring", "Disabled")]
    { Examples.conrepBase with
      settings := [("PowerMonitoring", "Disabled")], facts := true }
    (by decide) (by decide) rfl rfl rfl rfl
  refine ⟨by decide, ?_, ?_⟩
  · have := h.1
    simpa using this
  · have := h.2.1
    simpa using this

/-- C8: if some key of the effective desired mapping is absent from the
current-state mapping, the flat adapter's `run_module` fails via the
`ConrepError` raised by `check_settings`, whose message names that key (and
hints at a custom hardware definition file), with `changed` still false and
the backend write never invoked. -/
theorem conrep_unknown_setting_fails (C : SDict) (p : Conrep.Params)
    (D1 D2 : SDict) (k v : String)
    (hxml : p.settings_xml = none)
    (hs : p.settings = D1 ++ (k, v) :: D2)
    (hpre : ∀ kv ∈ D1, (C.lookup kv.1).isSome = true)
    (hk : C.lookup k = none) :
    Conrep.run_module C p =
      { result := .ok { Conrep.emptyResult with
          failedMsg := some (Conrep.conrepUnknownMsg k v) },
        wrote := false } := by
  have hchk := Conrep.check_settings_first_missing C D1 D2 k v hpre hk
  simp only [Conrep.run_module, hxml, hs, hchk, Conrep.boundary]

theorem Conrep.boundary_wrote (r : Conrep.ModResult) (w : Bool) (e : PyError) :
    (Conrep.boundary r w e).wrote = w := by
  cases e <;> rfl

theorem Conrep.boundary_result (r : Conrep.ModResult) (w w' : Bool)
    (e : PyError) :
    (Conrep.boundary r w e).result = (Conrep.boundary r w' e).result := by
  cases e <;> rfl

theorem Conrep.finish_wrote (r : Conrep.ModResult) (w : Bool) (old s : SDict)
    (p : Conrep.Params) : (Conrep.finish r w old s p).wrote = w := by
  unfold Conrep.finish
  split <;> rfl

theorem Conrep.finish_result (r : Conrep.ModResult) (w w' : Bool)
    (old s : SDict) (p p' : Conrep.Params) (hf : p.facts = p'.facts) :
    (Conrep.finish r w old s p).result = (Conrep.finish r w' old s p').result := by
  unfold Conrep.finish
  rw [hf]
  split <;> rfl

theorem Conrep.run_module_check_wrote (Cs : SDict) (pc : Conrep.Params) :
    (Conrep.run_module Cs { pc with check_mode := true }).wrote = false := by
  simp only [Conrep.run_module]
  split
  · exact Conrep.boundary_wrote _ _ _
  · split
    · exact Conrep.boundary_wrote _ _ _
    · split
      · exact Conrep.boundary_wrote _ _ _
      · split
        · exact Conrep.finish_wrote _ _ _ _ _
        · simp only [Bool.not_true, Bool.false_and, Bool.false_eq_true, if_false]
          exact Conrep.finish_wrote _ _ _ _ _

theorem Conrep.run_module_check_result (Cs : SDict) (pc : Conrep.Params) :
    (Conrep.run_module Cs { pc with check_mode := true }).result =
      (Conrep.run_module Cs
        { pc with check_mode := false, writeRc := true }).result := by
  simp only [Conrep.run_module]
  dsimp only
  cases hchk : Conrep.check_settings Cs
      (match pc.settings_xml with | some d => d | none => pc.settings) with
  | error e => exact Conrep.boundary_result _ _ _ _
  | ok u =>
  dsimp only
  cases hfil : Conrep.filter_changed_settings Cs
      (match pc.settings_xml with | some d => d | none => pc.settings) with
  | error e => exact Conrep.boundary_result _ _ _ _
  | ok settings =>
  dsimp only
  cases hdf : (if pc.diffMode then
      (Conrep.diff_settings Cs settings).map some else .ok none) with
  | error e => exact Conrep.boundary_result _ _ _ _
  | ok dOpt =>
  dsimp only
  by_cases hie : settings.isEmpty
  · simp only [hie, if_true]
    exact Conrep.finish_result _ _ _ _ _ _ _ rfl
  · simp only [hie, Bool.false_eq_true, if_false, Bool.not_true, Bool.not_false,
      Bool.false_and, Bool.true_and, Bool.and_false]
    exact Conrep.finish_result _ _ _ _ _ _ _ rfl

theorem hprcu_boundary_wrote (r : Hprcu.ModResult) (w : Bool) (e : PyError) :
    (Hprcu.boundary r w e).wrote = w := by
  cases e <;> rfl

theorem hprcu_boundary_result (r : Hprcu.ModResult) (w w' : Bool)
    (e : PyError) :
    (Hprcu.boundary r w e).result = (Hprcu.boundary r w' e).result := by
  cases e <;> rfl

theorem hprcu_finish_wrote (r : Hprcu.ModResult) (w : Bool)
    (doc : Option Hprcu.Doc) (old_doc : Hprcu.Doc) (p : Hprcu.Params) :
    (Hprcu.finish r w doc old_doc p).wrote = w := by
  unfold Hprcu.finish
  split
  · split
    · exact hprcu_boundary_wrote _ _ _
    · rfl
  · rfl

theorem hprcu_finish_result (r : Hprcu.ModResult) (w w' : Bool)
    (doc : Option Hprcu.Doc) (old_doc : Hprcu.Doc) (p p' : Hprcu.Params)
    (hf : p.facts = p'.facts) :
    (Hprcu.finish r w doc old_doc p).result =
      (Hprcu.finish r w' doc old_doc p').result := by
  unfold Hprcu.finish
  rw [hf]
  split
  · split
    · exact hprcu_boundary_result _ _ _ _
    · rfl
  · rfl

theorem hprcu_run_module_check_wrote (oldDoc : Hprcu.Doc) (ph : Hprcu.Params) :
    (Hprcu.run_module oldDoc { ph with check_mode := true }).wrote = false := by
  simp only [Hprcu.run_module]
  split
  · exact hprcu_boundary_wrote _ _ _
  · split
    · exact hprcu_boundary_wrote _ _ _
    · split
      · exact hprcu_boundary_wrote _ _ _
      · split
        · simp only [Bool.not_true, Bool.false_and, Bool.false_eq_true, if_false]
          exact hprcu_finish_wrote _ _ _ _ _
        · exact hprcu_finish_wrote _ _ _ _ _

theorem hprcu_run_module_check_result (oldDoc : Hprcu.Doc) (ph : Hprcu.Params) :
    (Hprcu.run_module oldDoc { ph with check_mode := true }).result =
      (Hprcu.run_module oldDoc
        { ph with check_mode := false, writeRc := true }).result := by
  simp only [Hprcu.run_module]
  dsimp only
  cases hst : Hprcu.settingsStep oldDoc
      { ph with check_mode := true } with
  | error e =>
    rw [show Hprcu.settingsStep oldDoc { ph with check_mode := false, writeRc := true }
        = .error e from hst]
  | ok st =>
  rw [show Hprcu.settingsStep oldDoc { ph with check_mode := false, writeRc := true }
      = .ok st from hst]
  dsimp only
  cases hx : Hprcu.xmlStep oldDoc { ph with check_mode := true } st with
  | error e =>
    rw [show Hprcu.xmlStep oldDoc { ph with check_mode := false, writeRc := true } st
        = .error e from hx]
  | ok dc =>
  rw [show Hprcu.xmlStep oldDoc { ph with check_mode := false, writeRc := true } st
      = .ok dc from hx]
  obtain ⟨doc, changed⟩ := dc
  dsimp only
  cases hdf : (if ph.diffMode then (Hprcu.mk_diff oldDoc doc).map some
      else .ok none) with
  | error e => exact hprcu_boundary_result _ _ _ _
  | ok dOpt =>
  dsimp only
  by_cases hch : changed
  · simp only [hch, if_true, Bool.not_true, Bool.not_false, Bool.false_and,
      Bool.true_and, Bool.and_false, Bool.false_eq_true, if_false]
    exact hprcu_finish_result _ _ _ _ _ _ _ rfl
  · simp only [hch, Bool.false_eq_true, if_false]
    exact hprcu_finish_result _ _ _ _ _ _ _ rfl

/-- C9: in check-mode `write_settings` never invokes the backend's
load/apply command in either adapter, while the module result (changed
flag, diff, facts, failure message) is the same as for a non-check run
whose backend write succeeds. -/
theorem check_mode_no_write_same_result (Cs : SDict) (pc : Conrep.Params)
    (oldDoc : Hprcu.Doc) (ph : Hprcu.Params) :
    (Conrep.run_module Cs { pc with check_mode := true }).wrote = false ∧
    (Conrep.run_module Cs { pc with check_mode := true }).result =
      (Conrep.run_module Cs
        { pc with check_mode := false, writeRc := true }).result ∧
    (Hprcu.run_module oldDoc { ph with check_mode := true }).wrote = false ∧
    (Hprcu.run_module oldDoc { ph with check_mode := true }).result =
      (Hprcu.run_module oldDoc
        { ph with check_mode := false, writeRc := true }).result :=
  ⟨Conrep.run_module_check_wrote Cs pc,
   Conrep.run_module_check_result Cs pc,
   hprcu_run_module_check_wrote oldDoc ph,
   hprcu_run_module_check_result oldDoc ph⟩

/-- Witness for C8: desired key `Bogus` is absent from the current state. -/
theorem conrep_unknown_setting_fails_witness :
    ([("Turbo", "Enabled")] : SDict).lookup "Bogus" = none ∧
    Conrep.run_module [("Turbo", "Enabled")]
        { Examples.conrepBase with settings := [("Bogus", "On")] } =
      { result := .ok { Conrep.emptyResult with
          failedMsg := some (Conrep.conrepUnknownMsg "Bogus" "On") },
        wrote := false } :=
  ⟨by decide,
   conrep_unknown_setting_fails [("Turbo", "Enabled")]
     { Examples.conrepBase with settings := [("Bogus", "On")] }
     [] [] "Bogus" "On" rfl rfl (by decide) (by decide)⟩

/-- C3 (code bug): in `apply_settings`, when the desired value of an
option-kind feature equals no option's display name, the code evaluates the
undefined name `HprcuErrror` (a misspelling of `HprcuError`; its argument
also references the undefined name `n`), so Python raises a `NameError`
instead of the intended domain error, and `run_module`'s `except HprcuError`
boundary propagates it unconverted instead of producing a structured
failure. -/
theorem apply_settings_unknown_option_nameError :
    Hprcu.apply_settings [Examples.featHT] [("Hyperthreading", "Bogus")] =
      .error (.nameError "HprcuErrror") ∧
    (Hprcu.run_module [Examples.featHT]
      { Examples.hprcuBase with
        settings := [("Hyperthreading", "Bogus")] }).result =
      .error (.nameError "HprcuErrror") := by
  constructor <;> rfl

/-- C4 (code bug): in `apply_settings`, a feature with an unrecognized
`feature_type` that is named in the desired mapping makes the code build the
`HprcuError` message from the undefined name `n`, so Python raises
`NameError: n` instead of the intended domain error, and `run_module`'s
boundary propagates it unconverted instead of producing a structured
failure. -/
theorem apply_settings_unknown_feature_type_nameError :
    Hprcu.apply_settings [{ Examples.featHT with feature_type := "enum" }]
        [("Hyperthreading", "Disabled")] = .error (.nameError "n") ∧
    (Hprcu.run_module [{ Examples.featHT with feature_type := "enum" }]
      { Examples.hprcuBase with
        settings := [("Hyperthreading", "Disabled")] }).result =
      .error (.nameError "n") := by
  constructor <;> rfl

/-- C5 (code bug): when diff output is requested and neither `settings` nor
`settings_xml` was supplied, `doc` is still `None` at the `mk_diff` call, so
the structured adapter raises `AttributeError` (a non-domain error) instead
of producing a diff record. -/
theorem run_module_diff_without_input_attributeError :
    (Hprcu.run_module [Examples.featHT]
      { Examples.hprcuBase with diffMode := true, facts := true }).result =
      .error (.attributeError "NoneType object has no attribute write") ∧
    (Hprcu.run_module [Examples.featHT]
      { Examples.hprcuBase with diffMode := true, facts := true }).wrote
      = false := by
  constructor <;> rfl

/-- C2 counterexample: in the structured adapter's raw-document path, a
shared feature id whose value differs and which precedes the unknown id in
the candidate's canonical mapping makes `doc_yield_changes` return `true`
without validating the remaining ids, so the backend write is invoked even
though a desired key (feature id `99`) is absent from the current state. -/
theorem raw_document_write_despite_unknown_id :
    (Hprcu.doc2dict [Examples.featHT]).lookup "99" = none ∧
    ("99", some "1") ∈ Hprcu.doc2dict
      [{ Examples.featHT with selected_option_id := "2" }, Examples.featOther] ∧
    (Hprcu.run_module [Examples.featHT]
      { Examples.hprcuBase with
        settings_xml := some [{ Examples.featHT with selected_option_id := "2" },
                              Examples.featOther] }).wrote = true := by
  refine ⟨rfl, ?_, rfl⟩
  decide

/-- C6 counterexample: `doc_yield_changes` does not fail whenever the
candidate references a feature id absent from the old document: a value
difference encountered earlier in the candidate's mapping returns
`changed = true` before the unknown id `99` is ever checked. -/
theorem doc_yield_changes_unknown_id_not_detected :
    (Hprcu.doc2dict [Examples.featHT]).lookup "99" = none ∧
    ("99", some "1") ∈ Hprcu.doc2dict
      [{ Examples.featHT with selected_option_id := "2" }, Examples.featOther] ∧
    Hprcu.doc_yield_changes [Examples.featHT]
      [{ Examples.featHT with selected_option_id := "2" }, Examples.featOther] =
      .ok true := by
  refine ⟨rfl, ?_, rfl⟩
  decide
namespace Hprcu

theorem mem_insertSeen (seen : List String) (y x : String) :
    x ∈ insertSeen seen y ↔ x ∈ seen ∨ x = y := by
  unfold insertSeen
  by_cases h : y ∈ seen
  · rw [if_pos h]
    constructor
    · exact Or.inl
    · rintro (hx | rfl)
      · exact hx
      · exact h
  · rw [if_neg h]
    simp [List.mem_append]

theorem nodup_insertSeen (seen : List String) (y : String) (hnd : seen.Nodup) :
    (insertSeen seen y).Nodup := by
  unfold insertSeen
  by_cases h : y ∈ seen
  · rw [if_pos h]
    exact hnd
  · rw [if_neg h]
    simp [List.nodup_append, hnd, h]

theorem mem_featureNames_cons (x : String) (e : Elem) (es : List Elem) :
    x ∈ featureNames (e :: es) ↔
      (e.tag = "feature" ∧ x = e.feature_name) ∨ x ∈ featureNames es := by
  by_cases h : e.tag = "feature"
  · simp [featureNames, List.filter_cons, h]
  · simp [featureNames, List.filter_cons, h]

theorem applyStep_ok_inv (h : SDict) (e e0 : Elem) (seen seen0 : List String)
    (ch ch0 : Bool) (hs : applyStep h e seen ch = .ok (e0, seen0, ch0)) :
    seen0 = (if e.tag = "feature" ∧ (h.lookup e.feature_name).isSome = true then
      insertSeen seen e.feature_name else seen) := by
  unfold applyStep at hs
  by_cases ht : e.tag = "feature"
  · rw [if_neg (fun hc => hc ht)] at hs
    cases hl : h.lookup e.feature_name with
    | none =>
      rw [hl] at hs
      simp only [Except.ok.injEq, Prod.mk.injEq] at hs
      obtain ⟨-, h2, -⟩ := hs
      subst h2
      simp [ht, hl]
    | some v =>
      rw [hl] at hs
      dsimp only at hs
      by_cases hty : e.feature_type = "option"
      · rw [if_pos hty] at hs
        cases ho : (e.options.filter (fun o => o.option_name = v)).map
            (fun o => o.option_id) with
        | nil => simp [ho] at hs
        | cons oid rest =>
          rw [ho] at hs
          simp only [Except.ok.injEq, Prod.mk.injEq] at hs
          obtain ⟨-, h2, -⟩ := hs
          subst h2
          simp [ht, hl, insertSeen]
      · by_cases hts : e.feature_type = "string"
        · rw [if_neg hty, if_pos hts] at hs
          simp only [Except.ok.injEq, Prod.mk.injEq] at hs
          obtain ⟨-, h2, -⟩ := hs
          subst h2
          simp [ht, hl, insertSeen]
        · rw [if_neg hty, if_neg hts] at hs
          cases hs
  · rw [if_pos ht] at hs
    simp only [Except.ok.injEq, Prod.mk.injEq] at hs
    obtain ⟨-, h2, -⟩ := hs
    subst h2
    simp [ht]

theorem applyStep_idem (h : SDict) (e e0 : Elem) (seen seen0 : List String)
    (ch ch0 ch' : Bool) (hs : applyStep h e seen ch = .ok (e0, seen0, ch0)) :
    applyStep h e0 seen ch' = .ok (e0, seen0, ch') := by
  unfold applyStep at hs ⊢
  by_cases ht : e.tag = "feature"
  · rw [if_neg (fun hc => hc ht)] at hs
    cases hl : h.lookup e.feature_name with
    | none =>
      rw [hl] at hs
      simp only [Except.ok.injEq, Prod.mk.injEq] at hs
      obtain ⟨h1, h2, h3⟩ := hs
      subst h1
      subst h2
      rw [if_neg (fun hc => hc ht), hl]
    | some v =>
      rw [hl] at hs
      dsimp only at hs
      by_cases hty : e.feature_type = "option"
      · rw [if_pos hty] at hs
        cases ho : (e.options.filter (fun o => o.option_name = v)).map
            (fun o => o.option_id) with
        | nil => simp [ho] at hs
        | cons oid rest =>
          rw [ho] at hs
          simp only [Except.ok.injEq, Prod.mk.injEq] at hs
          obtain ⟨h1, h2, h3⟩ := hs
          subst h1
          subst h2
          dsimp only
          rw [if_neg (fun hc => hc ht), hl]
          dsimp only
          rw [if_pos hty, ho]
          simp
      · by_cases hts : e.feature_type = "string"
        · rw [if_neg hty, if_pos hts] at hs
          simp only [Except.ok.injEq, Prod.mk.injEq] at hs
          obtain ⟨h1, h2, h3⟩ := hs
          subst h1
          subst h2
          dsimp only
          rw [if_neg (fun hc => hc ht), hl]
          dsimp only
          rw [if_neg hty, if_pos hts]
          simp
        · rw [if_neg hty, if_neg hts] at hs
          cases hs
  · rw [if_pos ht] at hs
    simp only [Except.ok.injEq, Prod.mk.injEq] at hs
    obtain ⟨h1, h2, h3⟩ := hs
    subst h1
    subst h2
    rw [if_pos ht]

theorem applyStep_ok_of_clean (h : SDict) (e : Elem) (seen : List String)
    (ch : Bool) (hc : featureAppliesCleanly h e = true) :
    ∃ out, applyStep h e seen ch = .ok out := by
  unfold applyStep
  unfold featureAppliesCleanly at hc
  by_cases ht : e.tag = "feature"
  · rw [if_neg (fun hcc => hcc ht)] at hc ⊢
    cases hl : h.lookup e.feature_name with
    | none => exact ⟨_, rfl⟩
    | some v =>
      rw [hl] at hc
      dsimp only at hc ⊢
      by_cases hty : e.feature_type = "option"
      · rw [if_pos hty] at hc ⊢
        cases ho : (e.options.filter (fun o => o.option_name = v)).map
            (fun o => o.option_id) with
        | nil =>
          exfalso
          rw [List.map_eq_nil_iff, List.filter_eq_nil_iff] at ho
          rw [List.any_eq_true] at hc
          obtain ⟨o, ho2, hov⟩ := hc
          exact absurd (of_decide_eq_true hov) (by simpa using ho o ho2)
        | cons oid rest => exact ⟨_, rfl⟩
      · by_cases hts : e.feature_type = "string"
        · rw [if_neg hty, if_pos hts]
          exact ⟨_, rfl⟩
        · rw [if_neg hty] at hc
          exact absurd (of_decide_eq_true hc) hts
  · rw [if_pos ht]
    exact ⟨_, rfl⟩

theorem applyLoop_seen_mem (h : SDict) (es : List Elem) :
    ∀ (seen : List String) (ch : Bool) (es1 : List Elem) (seen1 : List String)
      (ch1 : Bool), applyLoop h es seen ch = .ok (es1, seen1, ch1) →
      ∀ x, x ∈ seen1 ↔ x ∈ seen ∨
        (x ∈ featureNames es ∧ (h.lookup x).isSome = true) := by
  induction es with
  | nil =>
    intro seen ch es1 seen1 ch1 hrun x
    simp only [applyLoop, Except.ok.injEq, Prod.mk.injEq] at hrun
    obtain ⟨-, h2, -⟩ := hrun
    subst h2
    simp [featureNames]
  | cons e es ih =>
    intro seen ch es1 seen1 ch1 hrun x
    simp only [applyLoop] at hrun
    cases hstep : applyStep h e seen ch with
    | error err => simp [hstep] at hrun
    | ok out =>
      obtain ⟨e0, seen0, ch0⟩ := out
      rw [hstep] at hrun
      dsimp only at hrun
      cases hrec : applyLoop h es seen0 ch0 with
      | error err => simp [hrec] at hrun
      | ok out2 =>
        obtain ⟨es2, seen2, ch2⟩ := out2
        rw [hrec] at hrun
        simp only [Except.ok.injEq, Prod.mk.injEq] at hrun
        obtain ⟨-, h2, -⟩ := hrun
        subst h2
        have hseen0 := applyStep_ok_inv h e e0 seen seen0 ch ch0 hstep
        have ihx := ih seen0 ch0 es2 seen2 ch2 hrec x
        rw [ihx, mem_featureNames_cons]
        by_cases hm : e.tag = "feature" ∧ (h.lookup e.feature_name).isSome = true
        · rw [if_pos hm] at hseen0
          subst hseen0
          rw [mem_insertSeen]
          constructor
          · rintro ((hx | rfl) | ⟨hn, hi⟩)
            · exact Or.inl hx
            · exact Or.inr ⟨Or.inl ⟨hm.1, rfl⟩, hm.2⟩
            · exact Or.inr ⟨Or.inr hn, hi⟩
          · rintro (hx | ⟨hn | hn, hi⟩)
            · exact Or.inl (Or.inl hx)
            · exact Or.inl (Or.inr hn.2)
            · exact Or.inr ⟨hn, hi⟩
        · rw [if_neg hm] at hseen0
          subst hseen0
          constructor
          · rintro (hx | ⟨hn, hi⟩)
            · exact Or.inl hx
            · exact Or.inr ⟨Or.inr hn, hi⟩
          · rintro (hx | ⟨hn | hn, hi⟩)
            · exact Or.inl hx
            · exfalso
              rw [hn.2] at hi
              exact hm ⟨hn.1, hi⟩
            · exact Or.inr ⟨hn, hi⟩

theorem applyLoop_nodup (h : SDict) (es : List Elem) :
    ∀ (seen : List String) (ch : Bool) (es1 : List Elem) (seen1 : List String)
      (ch1 : Bool), applyLoop h es seen ch = .ok (es1, seen1, ch1) →
      seen.Nodup → seen1.Nodup := by
  induction es with
  | nil =>
    intro seen ch es1 seen1 ch1 hrun hnd
    simp only [applyLoop, Except.ok.injEq, Prod.mk.injEq] at hrun
    obtain ⟨-, h2, -⟩ := hrun
    subst h2
    exact hnd
  | cons e es ih =>
    intro seen ch es1 seen1 ch1 hrun hnd
    simp only [applyLoop] at hrun
    cases hstep : applyStep h e seen ch with
    | error err => simp [hstep] at hrun
    | ok out =>
      obtain ⟨e0, seen0, ch0⟩ := out
      rw [hstep] at hrun
      dsimp only at hrun
      cases hrec : applyLoop h es seen0 ch0 with
      | error err => simp [hrec] at hrun
      | ok out2 =>
        obtain ⟨es2, seen2, ch2⟩ := out2
        rw [hrec] at hrun
        simp only [Except.ok.injEq, Prod.mk.injEq] at hrun
        obtain ⟨-, h2, -⟩ := hrun
        subst h2
        apply ih seen0 ch0 es2 seen2 ch2 hrec
        have hseen0 := applyStep_ok_inv h e e0 seen seen0 ch ch0 hstep
        by_cases hm : e.tag = "feature" ∧ (h.lookup e.feature_name).isSome = true
        · rw [if_pos hm] at hseen0
          subst hseen0
          exact nodup_insertSeen seen e.feature_name hnd
        · rw [if_neg hm] at hseen0
          subst hseen0
          exact hnd

theorem applyLoop_idem (h : SDict) (es : List Elem) :
    ∀ (seen : List String) (ch : Bool) (es1 : List Elem) (seen1 : List String)
      (ch1 ch' : Bool), applyLoop h es seen ch = .ok (es1, seen1, ch1) →
      applyLoop h es1 seen ch' = .ok (es1, seen1, ch') := by
  induction es with
  | nil =>
    intro seen ch es1 seen1 ch1 ch' hrun
    simp only [applyLoop, Except.ok.injEq, Prod.mk.injEq] at hrun
    obtain ⟨h1, h2, -⟩ := hrun
    subst h1
    subst h2
    rfl
  | cons e es ih =>
    intro seen ch es1 seen1 ch1 ch' hrun
    simp only [applyLoop] at hrun
    cases hstep : applyStep h e seen ch with
    | error err => simp [hstep] at hrun
    | ok out =>
      obtain ⟨e0, seen0, ch0⟩ := out
      rw [hstep] at hrun
      dsimp only at hrun
      cases hrec : applyLoop h es seen0 ch0 with
      | error err => simp [hrec] at hrun
      | ok out2 =>
        obtain ⟨es2, seen2, ch2⟩ := out2
        rw [hrec] at hrun
        simp only [Except.ok.injEq, Prod.mk.injEq] at hrun
        obtain ⟨h1, h2, -⟩ := hrun
        subst h1
        subst h2
        have hstep2 := applyStep_idem h e e0 seen seen0 ch ch0 ch' hstep
        have hrec2 := ih seen0 ch0 es2 seen2 ch2 ch' hrec
        simp only [applyLoop, hstep2, hrec2]

theorem applyLoop_ok_of_clean (h : SDict) (es : List Elem) :
    ∀ (seen : List String) (ch : Bool),
      (∀ e ∈ es, featureAppliesCleanly h e = true) →
      ∃ out, applyLoop h es seen ch = .ok out := by
  induction es with
  | nil =>
    intro seen ch hcl
    exact ⟨([], seen, ch), rfl⟩
  | cons e es ih =>
    intro seen ch hcl
    obtain ⟨⟨e0, seen0, ch0⟩, hstep⟩ :=
      applyStep_ok_of_clean h e seen ch (hcl e (List.mem_cons_self _ _))
    obtain ⟨⟨es1, seen1, ch1⟩, hrec⟩ :=
      ih seen0 ch0 (fun e2 he2 => hcl e2 (List.mem_cons_of_mem _ he2))
    refine ⟨(e0 :: es1, seen1, ch1), ?_⟩
    simp only [applyLoop, hstep, hrec]

theorem applyLoop_seen_length_lt (h : SDict) (doc doc1 : Doc)
    (seen1 : List String) (ch1 : Bool)
    (hrun : applyLoop h doc [] false = .ok (doc1, seen1, ch1))
    (k : String) (hk : k ∈ dictKeys h) (hknames : k ∉ featureNames doc) :
    seen1.length < h.length := by
  have hchar := applyLoop_seen_mem h doc [] false doc1 seen1 ch1 hrun
  have hnd1 : seen1.Nodup :=
    applyLoop_nodup h doc [] false doc1 seen1 ch1 hrun List.nodup_nil
  have hsub : seen1 ⊆ dictKeys h := by
    intro x hx
    rcases (hchar x).1 hx with hx0 | ⟨-, hi⟩
    · cases hx0
    · exact (lookup_isSome_iff_mem_keys h x).1 hi
  have hknotin : k ∉ seen1 := by
    intro hc
    rcases (hchar k).1 hc with hk0 | ⟨hn, -⟩
    · cases hk0
    · exact hknames hn
  have hsub2 : (k :: seen1) ⊆ dictKeys h := by
    intro x hx
    rcases List.mem_cons.1 hx with rfl | hx2
    · exact hk
    · exact hsub hx2
  have hnd2 : (k :: seen1).Nodup := List.nodup_cons.2 ⟨hknotin, hnd1⟩
  have hle := (hnd2.subperm hsub2).length_le
  have hkeys : (dictKeys h).length = h.length := List.length_map _ _
  simp only [List.length_cons] at hle
  omega

theorem apply_settings_error_of_missing (doc : Doc) (h : SDict) (k : String)
    (hk : k ∈ dictKeys h) (hknames : k ∉ featureNames doc) :
    ∃ e, apply_settings doc h = .error e := by
  unfold apply_settings
  cases hrun : applyLoop h doc [] false with
  | error err => exact ⟨err, rfl⟩
  | ok out =>
    obtain ⟨doc1, seen1, ch1⟩ := out
    have hlt := applyLoop_seen_length_lt h doc doc1 seen1 ch1 hrun k hk hknames
    dsimp only
    rw [if_pos (Nat.ne_of_lt hlt)]
    exact ⟨_, rfl⟩

theorem yieldLoop_all_known (x y : List (String × Option String))
    (h : ∀ kv ∈ y, (x.lookup kv.1).isSome = true) :
    yieldLoop x y = .ok (y.any fun kv => decide (x.lookup kv.1 ≠ some kv.2)) := by
  induction y with
  | nil => rfl
  | cons kv rest ih =>
    obtain ⟨k, v⟩ := kv
    have hk := h (k, v) (List.mem_cons_self _ _)
    cases hl : x.lookup k with
    | none => rw [hl] at hk; simp at hk
    | some w =>
      simp only [yieldLoop, hl]
      by_cases hw : w ≠ v
      · rw [if_pos hw]
        simp [List.any_cons, hl, hw]
      · rw [if_neg hw]
        rw [not_not] at hw
        subst hw
        rw [ih (fun kv hkv => h kv (List.mem_cons_of_mem _ hkv))]
        simp [List.any_cons, hl]

theorem yieldLoop_error_of_missing (x y : List (String × Option String))
    (hshared : ∀ kv ∈ y, ∀ w, x.lookup kv.1 = some w → w = kv.2)
    (hmiss : ∃ kv ∈ y, x.lookup kv.1 = none) :
    ∃ k, k ∈ dictKeys y ∧ x.lookup k = none ∧
      yieldLoop x y =
        .error (.hprcuError ("Feature " ++ k ++ " not known by this hprcu")) := by
  induction y with
  | nil =>
    obtain ⟨kv, hkv, -⟩ := hmiss
    cases hkv
  | cons kv rest ih =>
    obtain ⟨k, v⟩ := kv
    cases hl : x.lookup k with
    | none =>
      refine ⟨k, by simp [dictKeys], hl, ?_⟩
      simp only [yieldLoop, hl]
    | some w =>
      have hw : w = v := hshared (k, v) (List.mem_cons_self _ _) w hl
      subst hw
      have hmiss2 : ∃ kv ∈ rest, x.lookup kv.1 = none := by
        obtain ⟨kv2, hkv2, hn⟩ := hmiss
        rcases List.mem_cons.1 hkv2 with rfl | h2
        · rw [hl] at hn
          cases hn
        · exact ⟨kv2, h2, hn⟩
      obtain ⟨k2, hk2, hn2, hyl⟩ :=
        ih (fun kv hkv w2 hw2 => hshared kv (List.mem_cons_of_mem _ hkv) w2 hw2) hmiss2
      refine ⟨k2, ?_, hn2, ?_⟩
      · simp only [dictKeys, List.map_cons, List.mem_cons]
        exact Or.inr hk2
      · simp only [yieldLoop, hl]
        rw [if_neg (fun hc => hc rfl)]
        exact hyl

theorem yieldLoop_error_of_clean_prefix (x : List (String × Option String))
    (y1 : List (String × Option String)) (k : String) (v : Option String)
    (y2 : List (String × Option String))
    (hpre : ∀ kv ∈ y1, ∀ w, x.lookup kv.1 = some w → w = kv.2)
    (hk : x.lookup k = none) :
    ∃ k2, k2 ∈ dictKeys (y1 ++ (k, v) :: y2) ∧ x.lookup k2 = none ∧
      yieldLoop x (y1 ++ (k, v) :: y2) =
        .error (.hprcuError ("Feature " ++ k2 ++ " not known by this hprcu")) := by
  induction y1 with
  | nil =>
    refine ⟨k, by simp [dictKeys], hk, ?_⟩
    simp only [List.nil_append, yieldLoop, hk]
  | cons kv1 rest ih =>
    obtain ⟨k1, v1⟩ := kv1
    cases hl : x.lookup k1 with
    | none =>
      refine ⟨k1, by simp [dictKeys], hl, ?_⟩
      simp only [List.cons_append, yieldLoop, hl]
    | some w =>
      have hw : w = v1 := hpre (k1, v1) (List.mem_cons_self _ _) w hl
      subst hw
      obtain ⟨k2, hk2, hn2, hyl⟩ :=
        ih (fun kv hkv w2 hw2 => hpre kv (List.mem_cons_of_mem _ hkv) w2 hw2)
      refine ⟨k2, ?_, hn2, ?_⟩
      · simp only [dictKeys, List.cons_append, List.map_cons, List.mem_cons]
        simp only [dictKeys] at hk2
        exact Or.inr hk2
      · simp only [List.cons_append, yieldLoop, hl]
        rw [if_neg (fun hc => hc rfl)]
        exact hyl

end Hprcu

namespace Conrep

theorem check_settings_ok_or_conrepError (C s : SDict) :
    check_settings C s = .ok () ∨
      ∃ m, check_settings C s = .error (.conrepError m) := by
  induction s with
  | nil => exact Or.inl rfl
  | cons kv rest ih =>
    obtain ⟨k, v⟩ := kv
    simp only [check_settings]
    by_cases h : (C.lookup k).isSome = true
    · rw [if_pos h]
      exact ih
    · rw [if_neg h]
      exact Or.inr ⟨_, rfl⟩

theorem check_settings_ok_forall (C s : SDict)
    (h : check_settings C s = .ok ()) :
    ∀ kv ∈ s, (C.lookup kv.1).isSome = true := by
  induction s with
  | nil =>
    intro kv hkv
    cases hkv
  | cons kv rest ih =>
    obtain ⟨k, v⟩ := kv
    intro kv2 hkv2
    simp only [check_settings] at h
    by_cases hx : (C.lookup k).isSome = true
    · rw [if_pos hx] at h
      rcases List.mem_cons.1 hkv2 with rfl | h2
      · exact hx
      · exact ih h kv2 h2
    · rw [if_neg hx] at h
      cases h

theorem run_module_of_check_error (Cs : SDict) (p : Params) (e : PyError)
    (hchk : check_settings Cs
      (match p.settings_xml with | some d => d | none => p.settings) = .error e) :
    run_module Cs p = boundary emptyResult false e := by
  simp only [run_module]
  rw [hchk]

end Conrep

namespace Hprcu

theorem run_module_of_settingsStep_error (oldDoc : Doc) (p : Params)
    (e : PyError) (hst : settingsStep oldDoc p = .error e) :
    run_module oldDoc p = boundary emptyResult false e := by
  simp only [run_module]
  rw [hst]

theorem run_module_of_xmlStep_error (oldDoc : Doc) (p : Params)
    (st : Option Doc × Bool) (e : PyError)
    (hst : settingsStep oldDoc p = .ok st)
    (hx : xmlStep oldDoc p st = .error e) :
    run_module oldDoc p = boundary emptyResult false e := by
  simp only [run_module]
  rw [hst]
  dsimp only
  rw [hx]

end Hprcu
/-- C7: `apply_settings` checks for unmatched desired keys only after the
loop over all features: whenever every matched feature processes cleanly and
some desired keys match no feature, it fails with the `HprcuError`
(`UnknownSettingError`) whose message lists every desired key that matched
no feature, in desired-mapping order. -/
theorem apply_settings_lists_all_unknown (doc : Hprcu.Doc) (h : SDict)
    (hclean : ∀ e ∈ doc, Hprcu.featureAppliesCleanly h e = true)
    (hmiss : (dictKeys h).filter
      (fun k => decide (k ∉ Hprcu.featureNames doc)) ≠ []) :
    Hprcu.apply_settings doc h = .error (.hprcuError
      ("Some features are unknown to this hprcu: " ++
        String.intercalate ", "
          ((dictKeys h).filter
            (fun k => decide (k ∉ Hprcu.featureNames doc))))) := by
  obtain ⟨⟨doc1, seen1, ch1⟩, hrun⟩ :=
    Hprcu.applyLoop_ok_of_clean h doc [] false hclean
  have hchar := Hprcu.applyLoop_seen_mem h doc [] false doc1 seen1 ch1 hrun
  have hchar2 : ∀ x ∈ dictKeys h, (x ∈ seen1 ↔ x ∈ Hprcu.featureNames doc) := by
    intro x hx
    rw [hchar x]
    have hi : (h.lookup x).isSome = true := (lookup_isSome_iff_mem_keys h x).2 hx
    simp [hi]
  have hfilter : (dictKeys h).filter (fun x => decide (x ∉ seen1)) =
      (dictKeys h).filter (fun k => decide (k ∉ Hprcu.featureNames doc)) := by
    apply List.filter_congr
    intro x hx
    simp [hchar2 x hx]
  have hmiss2 : ∃ k, k ∈ dictKeys h ∧ k ∉ Hprcu.featureNames doc := by
    cases hfe : (dictKeys h).filter
        (fun k => decide (k ∉ Hprcu.featureNames doc)) with
    | nil => exact absurd hfe hmiss
    | cons k ks =>
      have hkmem : k ∈ (dictKeys h).filter
          (fun k => decide (k ∉ Hprcu.featureNames doc)) := by
        rw [hfe]
        exact List.mem_cons_self _ _
      have h2 := List.mem_filter.1 hkmem
      exact ⟨k, h2.1, of_decide_eq_true h2.2⟩
  obtain ⟨k, hk, hknames⟩ := hmiss2
  have hlt := Hprcu.applyLoop_seen_length_lt h doc doc1 seen1 ch1 hrun k hk hknames
  unfold Hprcu.apply_settings
  rw [hrun]
  dsimp only
  rw [if_pos (Nat.ne_of_lt hlt)]
  rw [Hprcu.unknownSettingsMsg, hfilter]

/-- Witness for C7: two desired keys match no feature and both are listed. -/
theorem apply_settings_lists_all_unknown_witness :
    (∀ e ∈ [Examples.featHT], Hprcu.featureAppliesCleanly
      [("Hyperthreading", "Disabled"), ("Nope", "x"), ("Nah", "y")] e = true) ∧
    Hprcu.apply_settings [Examples.featHT]
        [("Hyperthreading", "Disabled"), ("Nope", "x"), ("Nah", "y")] =
      .error (.hprcuError
        ("Some features are unknown to this hprcu: " ++
          String.intercalate ", "
            ((dictKeys
              ([("Hyperthreading", "Disabled"), ("Nope", "x"), ("Nah", "y")] :
                SDict)).filter
              (fun k => decide (k ∉ Hprcu.featureNames [Examples.featHT]))))) :=
  ⟨by decide,
   apply_settings_lists_all_unknown [Examples.featHT]
     [("Hyperthreading", "Disabled"), ("Nope", "x"), ("Nah", "y")]
     (by decide) (by decide)⟩

/-- C10: `apply_settings` is idempotent: whenever it succeeds on a document
and desired mapping, applying the same mapping to the edited document
succeeds with `changed = false` and leaves the document unchanged. -/
theorem apply_settings_idempotent (doc doc' : Hprcu.Doc) (h : SDict)
    (c : Bool) (hap : Hprcu.apply_settings doc h = .ok (doc', c)) :
    Hprcu.apply_settings doc' h = .ok (doc', false) := by
  unfold Hprcu.apply_settings at hap ⊢
  cases hrun : Hprcu.applyLoop h doc [] false with
  | error err =>
    rw [hrun] at hap
    cases hap
  | ok out =>
    obtain ⟨doc1, seen1, ch1⟩ := out
    rw [hrun] at hap
    dsimp only at hap
    by_cases hlen : seen1.length ≠ h.length
    · rw [if_pos hlen] at hap
      cases hap
    · rw [if_neg hlen] at hap
      simp only [Except.ok.injEq, Prod.mk.injEq] at hap
      obtain ⟨h1, h2⟩ := hap
      subst h1
      have hidem := Hprcu.applyLoop_idem h doc [] false doc1 seen1 ch1 false hrun
      rw [hidem]
      dsimp only
      rw [if_neg hlen]

/-- Witness for C10 at the spec's `Hyperthreading` scenario. -/
theorem apply_settings_idempotent_witness :
    Hprcu.apply_settings [Examples.featHT] [("Hyperthreading", "Disabled")] =
      .ok ([{ Examples.featHT with selected_option_id := "2" }], true) ∧
    Hprcu.apply_settings [{ Examples.featHT with selected_option_id := "2" }]
        [("Hyperthreading", "Disabled")] =
      .ok ([{ Examples.featHT with selected_option_id := "2" }], false) :=
  ⟨by decide,
   apply_settings_idempotent [Examples.featHT]
     [{ Examples.featHT with selected_option_id := "2" }]
     [("Hyperthreading", "Disabled")] true (by decide)⟩

/-- C6 (amended): in the raw-document path, when every candidate feature id
is known to the old document, `doc_yield_changes` succeeds and reports
`changed = true` exactly when some shared id's value differs; and whenever
the candidate's canonical mapping references a feature id absent from the
old document such that no shared id's value difference precedes it in the
candidate mapping's iteration order, it fails with the `HprcuError`
(`UnknownSettingError`) naming an absent id.  (A value difference
encountered before the absent id short-circuits to `changed = true` instead
— see the counterexample.) -/
theorem doc_yield_changes_characterized (old cand : Hprcu.Doc) :
    ((∀ kv ∈ Hprcu.doc2dict cand,
        ((Hprcu.doc2dict old).lookup kv.1).isSome = true) →
      Hprcu.doc_yield_changes old cand =
        .ok ((Hprcu.doc2dict cand).any
          (fun kv => decide ((Hprcu.doc2dict old).lookup kv.1 ≠ some kv.2)))) ∧
    (∀ (y1 : List (String × Option String)) (k : String) (v : Option String)
       (y2 : List (String × Option String)),
      Hprcu.doc2dict cand = y1 ++ (k, v) :: y2 →
      (∀ kv ∈ y1, ∀ w,
        (Hprcu.doc2dict old).lookup kv.1 = some w → w = kv.2) →
      (Hprcu.doc2dict old).lookup k = none →
      ∃ k2, k2 ∈ dictKeys (Hprcu.doc2dict cand) ∧
        (Hprcu.doc2dict old).lookup k2 = none ∧
        Hprcu.doc_yield_changes old cand = .error (.hprcuError
          ("Feature " ++ k2 ++ " not known by this hprcu"))) := by
  constructor
  · intro hall
    exact Hprcu.yieldLoop_all_known _ _ hall
  · intro y1 k v y2 hsplit hpre hk
    unfold Hprcu.doc_yield_changes
    rw [hsplit]
    exact Hprcu.yieldLoop_error_of_clean_prefix
      (Hprcu.doc2dict old) y1 k v y2 hpre hk

/-- Witness for C6, exercising both branches: a candidate with all ids
known and one changed value, and a candidate whose unknown id `99` precedes
a differing shared id. -/
theorem doc_yield_changes_characterized_witness :
    ((∀ kv ∈ Hprcu.doc2dict [{ Examples.featHT with selected_option_id := "2" }],
      ((Hprcu.doc2dict [Examples.featHT]).lookup kv.1).isSome = true) ∧
    Hprcu.doc_yield_changes [Examples.featHT]
        [{ Examples.featHT with selected_option_id := "2" }] =
      .ok ((Hprcu.doc2dict
          [{ Examples.featHT with selected_option_id := "2" }]).any
        (fun kv => decide
          ((Hprcu.doc2dict [Examples.featHT]).lookup kv.1 ≠ some kv.2)))) ∧
    (Hprcu.doc2dict
        [Examples.featOther, { Examples.featHT with selected_option_id := "2" }] =
      [] ++ ("99", (some "1" : Option String)) :: [("10", some "2")]) ∧
    (∃ k2, k2 ∈ dictKeys (Hprcu.doc2dict
        [Examples.featOther, { Examples.featHT with selected_option_id := "2" }]) ∧
      (Hprcu.doc2dict [Examples.featHT]).lookup k2 = none ∧
      Hprcu.doc_yield_changes [Examples.featHT]
          [Examples.featOther, { Examples.featHT with selected_option_id := "2" }] =
        .error (.hprcuError
          ("Feature " ++ k2 ++ " not known by this hprcu"))) :=
  ⟨⟨by decide,
    (doc_yield_changes_characterized [Examples.featHT]
      [{ Examples.featHT with selected_option_id := "2" }]).1 (by decide)⟩,
   by decide,
   (doc_yield_changes_characterized [Examples.featHT]
      [Examples.featOther, { Examples.featHT with selected_option_id := "2" }]).2
     [] "99" (some "1") [("10", some "2")] (by decide)
     (by intro kv hkv w hw; cases hkv) (by decide)⟩

/-- C2 (amended): if a desired key is absent from the current state, no
backend write invocation occurs in the flat adapter (either input path) and
in the structured adapter's `settings` path; in the structured adapter's
raw-document path this holds provided no shared feature id's value differs —
a value difference encountered first returns `changed = true` without
validating the remaining ids and the write proceeds (see the
counterexample). -/
theorem no_write_on_unknown_key (Cs : SDict) (pc : Conrep.Params)
    (oldDoc : Hprcu.Doc) (ph : Hprcu.Params) (cand : Hprcu.Doc) :
    ((∃ kv ∈ (match pc.settings_xml with
        | some d => d
        | none => pc.settings), Cs.lookup kv.1 = none) →
      (Conrep.run_module Cs pc).wrote = false) ∧
    (∀ k, k ∈ dictKeys ph.settings → k ∉ Hprcu.featureNames oldDoc →
      (Hprcu.run_module oldDoc ph).wrote = false) ∧
    (ph.settings_xml = some cand →
      (∀ kv ∈ Hprcu.doc2dict cand, ∀ w,
        (Hprcu.doc2dict oldDoc).lookup kv.1 = some w → w = kv.2) →
      (∃ kv ∈ Hprcu.doc2dict cand,
        (Hprcu.doc2dict oldDoc).lookup kv.1 = none) →
      (Hprcu.run_module oldDoc ph).wrote = false) := by
  refine ⟨?_, ?_, ?_⟩
  · rintro ⟨kv, hkv, hnone⟩
    rcases Conrep.check_settings_ok_or_conrepError Cs
        (match pc.settings_xml with
         | some d => d
         | none => pc.settings) with hok | ⟨m, herr⟩
    · have hsome := Conrep.check_settings_ok_forall _ _ hok kv hkv
      rw [hnone] at hsome
      simp at hsome
    · rw [Conrep.run_module_of_check_error Cs pc _ herr]
      exact Conrep.boundary_wrote _ _ _
  · intro k hk hnames
    obtain ⟨e, herr⟩ :=
      Hprcu.apply_settings_error_of_missing oldDoc ph.settings k hk hnames
    have hne : ph.settings.isEmpty = false := by
      cases hs : ph.settings with
      | nil =>
        rw [hs] at hk
        simp [dictKeys] at hk
      | cons a l => rfl
    have hst : Hprcu.settingsStep oldDoc ph = .error e := by
      unfold Hprcu.settingsStep
      rw [hne]
      simp only [Bool.false_eq_true, if_false]
      rw [herr]
    rw [Hprcu.run_module_of_settingsStep_error oldDoc ph e hst]
    exact hprcu_boundary_wrote _ _ _
  · intro hxml hsh hmiss
    cases hst : Hprcu.settingsStep oldDoc ph with
    | error e =>
      rw [Hprcu.run_module_of_settingsStep_error oldDoc ph e hst]
      exact hprcu_boundary_wrote _ _ _
    | ok st =>
      obtain ⟨k, -, -, hyl⟩ := Hprcu.yieldLoop_error_of_missing _ _ hsh hmiss
      have hx : Hprcu.xmlStep oldDoc ph st =
          .error (.hprcuError ("Feature " ++ k ++ " not known by this hprcu")) := by
        unfold Hprcu.xmlStep
        rw [hxml]
        dsimp only
        rw [show Hprcu.doc_yield_changes oldDoc cand =
          .error (.hprcuError ("Feature " ++ k ++ " not known by this hprcu"))
          from hyl]
      rw [Hprcu.run_module_of_xmlStep_error oldDoc ph st _ hst hx]
      exact hprcu_boundary_wrote _ _ _

/-- Witness for C2 over all three paths at concrete inputs. -/
theorem no_write_on_unknown_key_witness :
    (Conrep.run_module [("Turbo", "Enabled")]
      { Examples.conrepBase with settings := [("Bogus", "On")] }).wrote = false ∧
    (Hprcu.run_module [Examples.featHT]
      { Examples.hprcuBase with settings := [("Nope", "x")] }).wrote = false ∧
    (Hprcu.run_module [Examples.featHT]
      { Examples.hprcuBase with
        settings_xml := some [Examples.featOther] }).wrote = false :=
  ⟨(no_write_on_unknown_key [("Turbo", "Enabled")]
      { Examples.conrepBase with settings := [("Bogus", "On")] }
      [Examples.featHT] Examples.hprcuBase []).1 (by decide),
   (no_write_on_unknown_key [] Examples.conrepBase [Examples.featHT]
      { Examples.hprcuBase with settings := [("Nope", "x")] } []).2.1
      "Nope" (by decide) (by decide),
   (no_write_on_unknown_key [] Examples.conrepBase [Examples.featHT]
      { Examples.hprcuBase with
        settings_xml := some [Examples.featOther] }
      [Examples.featOther]).2.2 rfl (by decide) (by decide)⟩
